import Mathlib

/-!
# Verification of the SEANet encoder/decoder assembly (`msh_mlx/modules/seanet.py`)

This file shallowly embeds the structural assembly logic of the SEANet
convolutional codec front-end: the configuration record, the residual block
constructor, and the encoder/decoder tower constructors.  The towers compose
external primitives (`StreamableConv1d`, `StreamableConvTranspose1d`, the
activation and normalization layers); those primitives live outside the
embedded module, so each tower layer is represented by a descriptor recording
exactly the arguments the source passes to the primitive's constructor.
Shape/value semantics of the primitives themselves are modelled from the
specification and are marked as such.

Python `assert` failures are modelled as `Except.error (.assertionError _)`.
The source file imports only `StreamableConv1d` (seanet.py line 12) while the
decoder's upsampling loop references `StreamableConvTranspose1d`
(seanet.py line 356); executing that loop body therefore raises a Python
`NameError`, modelled as `Except.error (.nameError _)`.
-/

namespace SeaNetSpec

/-- The `SeaNetConfig` dataclass (seanet.py lines 14-32).
`disable_norm_outer_blocks` is an `Int` because the construction-time assert
also guards against negative values (Python ints are signed).
`mask_fn`/`mask_position` are extra constructor arguments of the encoder that
default to `None` and are not part of the config record; construction from a
`SeaNetConfig` leaves them at their defaults, so no mask layer is spliced. -/
structure SeaNetConfig where
  dimension : Nat
  channels : Nat
  causal : Bool
  n_filters : Nat
  n_residual_layers : Nat
  ratios : List Nat
  activation : String
  norm : String
  kernel_size : Nat
  residual_kernel_size : Nat
  last_kernel_size : Nat
  dilation_base : Nat
  pad_mode : String
  true_skip : Bool
  compress : Nat
  lstm : Nat
  disable_norm_outer_blocks : Int
  final_activation : Option String
deriving DecidableEq, Repr

/-- Arguments passed to a `StreamableConv1d` construction.  `stride` and
`dilation` default to `1` when the source call site omits them (the defaults
of the external primitive, per the spec's interface description §6).  The
opaque `norm_kwargs` / `activation_params` dictionaries carry no structure
relevant to any claim and are omitted. -/
structure ConvSpec where
  inChannels : Nat
  outChannels : Nat
  kernelSize : Nat
  stride : Nat
  dilation : Nat
  norm : String
  causal : Bool
  padMode : String
deriving DecidableEq, Repr

/-- Arguments passed to a `StreamableConvTranspose1d` construction.
`trim_right_ratio` (a float steering only the external causal trimming) is
omitted; no claim depends on it. -/
structure ConvTrSpec where
  inChannels : Nat
  outChannels : Nat
  kernelSize : Nat
  stride : Nat
  norm : String
  causal : Bool
deriving DecidableEq, Repr

/-- The state a successful `SeaNetResnetBlock.__init__` leaves behind
(seanet.py lines 41-97): the branch as a list of (activation kind,
convolution) pairs, and the shortcut (`none` models `nn.Identity`, the
parameterless exact passthrough used for a true skip). -/
structure ResnetBlock where
  dim : Nat
  branch : List (String × ConvSpec)
  shortcut : Option ConvSpec
deriving DecidableEq, Repr

/-- A layer appended to a tower's `model` list. -/
inductive Layer where
  | conv (c : ConvSpec)
  | convTranspose (c : ConvTrSpec)
  | resnet (b : ResnetBlock)
  | activation (kind : String)
deriving DecidableEq, Repr

/-- The syntactic kind of a layer, for stating which kinds of layers a
pipeline consists of. -/
inductive LayerKind where
  | conv
  | convTranspose
  | resnet
  | activation
deriving DecidableEq, Repr

/-- The kind of a layer. -/
def Layer.kind : Layer → LayerKind
  | .conv _ => .conv
  | .convTranspose _ => .convTranspose
  | .resnet _ => .resnet
  | .activation _ => .activation

/-- Construction-time failures: Python `AssertionError` from a failed
`assert`, and Python `NameError` from referencing an undefined name. -/
inductive InitError where
  | assertionError (msg : String)
  | nameError (name : String)
deriving DecidableEq, Repr

/-- The body of `SeaNetResnetBlock.__init__` after its assert
(seanet.py lines 62-92): `hidden = dim // compress`; the branch is one
(activation, conv) pair per entry of `zip(kernel_sizes, dilations)`, the
`i`-th conv taking `dim` in-channels iff `i == 0` and emitting `dim`
out-channels iff `i == len(kernel_sizes) - 1`, `hidden` otherwise; the
shortcut is identity for a true skip, else a kernel-1 `dim → dim` conv. -/
def SeaNetResnetBlock.body (dim : Nat) (kernelSizes dilations : List Nat)
    (activation : String) (norm : String) (causal : Bool) (padMode : String)
    (compress : Nat) (trueSkip : Bool) : ResnetBlock :=
  let hidden := dim / compress
  let branch := ((kernelSizes.zip dilations).enum).map fun p =>
    (activation,
      { inChannels := if p.1 = 0 then dim else hidden
        outChannels := if p.1 = kernelSizes.length - 1 then dim else hidden
        kernelSize := p.2.1
        stride := 1
        dilation := p.2.2
        norm := norm
        causal := causal
        padMode := padMode : ConvSpec })
  { dim := dim
    branch := branch
    shortcut :=
      if trueSkip then none
      else some { inChannels := dim, outChannels := dim, kernelSize := 1, stride := 1,
                  dilation := 1, norm := norm, causal := causal, padMode := padMode } }

/-- `SeaNetResnetBlock.__init__` (seanet.py lines 41-97): asserts
`len(kernel_sizes) == len(dilations)` and then builds the block. -/
def SeaNetResnetBlock.init (dim : Nat) (kernelSizes dilations : List Nat)
    (activation : String) (norm : String) (causal : Bool) (padMode : String)
    (compress : Nat) (trueSkip : Bool) : Except InitError ResnetBlock :=
  if kernelSizes.length = dilations.length then
    .ok (SeaNetResnetBlock.body dim kernelSizes dilations activation norm causal padMode
      compress trueSkip)
  else
    .error (.assertionError "Number of kernel sizes should match number of dilations")

/-- The state a (successful) `SeaNetEncoder.__init__` leaves behind.  Note
`ratios` holds the reversed list (`self.ratios = list(reversed(ratios))`,
seanet.py line 161). -/
structure SeaNetEncoder where
  channels : Nat
  dimension : Nat
  n_filters : Nat
  ratios : List Nat
  n_residual_layers : Nat
  hop_length : Nat
  n_blocks : Nat
  disable_norm_outer_blocks : Int
  model : List Layer
deriving DecidableEq, Repr

/-- The encoder's downsampling loop (seanet.py lines 193-228), written as a
recursion over the (already reversed) ratio list, threading the running loop
index `i` and channel multiplier `mult` (`mult *= 2` after each stage) and
returning the produced layers together with the final multiplier.  Each
iteration appends `n_residual_layers` residual blocks (the `j`-th with
kernel sizes `[residual_kernel_size, 1]` and dilations `[dilation_base**j, 1]`)
and then an activation plus a strided convolution
`mult*n_filters → mult*n_filters*2` with kernel `ratio*2`, stride `ratio`,
all under `block_norm = "none" if disable_norm_outer_blocks >= i + 2 else norm`.
(The residual-block constructor's assert always passes here: both lists have
length 2.) -/
def SeaNetEncoder.loop (cfg : SeaNetConfig) : List Nat → Nat → Nat → List Layer × Nat
  | [], _i, mult => ([], mult)
  | ratio :: rest, i, mult =>
    let blockNorm := if cfg.disable_norm_outer_blocks ≥ (i : Int) + 2 then "none" else cfg.norm
    let residuals := (List.range cfg.n_residual_layers).map fun j =>
      Layer.resnet (SeaNetResnetBlock.body (mult * cfg.n_filters)
        [cfg.residual_kernel_size, 1] [cfg.dilation_base ^ j, 1]
        cfg.activation blockNorm cfg.causal cfg.pad_mode cfg.compress cfg.true_skip)
    let down : List Layer :=
      [Layer.activation cfg.activation,
       Layer.conv
         { inChannels := mult * cfg.n_filters
           outChannels := mult * cfg.n_filters * 2
           kernelSize := ratio * 2
           stride := ratio
           dilation := 1
           norm := blockNorm
           causal := cfg.causal
           padMode := cfg.pad_mode }]
    let next := SeaNetEncoder.loop cfg rest (i + 1) (mult * 2)
    (residuals ++ down ++ next.1, next.2)

/-- The attribute assignments and layer assembly of `SeaNetEncoder.__init__`
(seanet.py lines 157-247), minus the asserts (handled in
`SeaNetEncoder.init`): reversed ratios, `hop_length = prod(self.ratios)`,
`n_blocks = len(self.ratios) + 2`, then the model list: initial convolution
`channels → mult*n_filters` (`mult = 1`) with norm `"none"` iff
`disable_norm_outer_blocks >= 1`, the downsampling loop, and a final
activation plus convolution `mult*n_filters → dimension` with norm `"none"`
iff `disable_norm_outer_blocks == n_blocks`.  (`mask_fn` is `None`, so no
mask layer is spliced.) -/
def SeaNetEncoder.make (cfg : SeaNetConfig) : SeaNetEncoder :=
  let ratios := cfg.ratios.reverse
  let hop := ratios.prod
  let nBlocks := ratios.length + 2
  let first : Layer := Layer.conv
    { inChannels := cfg.channels
      outChannels := 1 * cfg.n_filters
      kernelSize := cfg.kernel_size
      stride := 1
      dilation := 1
      norm := if cfg.disable_norm_outer_blocks ≥ 1 then "none" else cfg.norm
      causal := cfg.causal
      padMode := cfg.pad_mode }
  let looped := SeaNetEncoder.loop cfg ratios 0 1
  let last : List Layer :=
    [Layer.activation cfg.activation,
     Layer.conv
       { inChannels := looped.2 * cfg.n_filters
         outChannels := cfg.dimension
         kernelSize := cfg.last_kernel_size
         stride := 1
         dilation := 1
         norm := if cfg.disable_norm_outer_blocks = (nBlocks : Int) then "none" else cfg.norm
         causal := cfg.causal
         padMode := cfg.pad_mode }]
  { channels := cfg.channels
    dimension := cfg.dimension
    n_filters := cfg.n_filters
    ratios := ratios
    n_residual_layers := cfg.n_residual_layers
    hop_length := hop
    n_blocks := nBlocks
    disable_norm_outer_blocks := cfg.disable_norm_outer_blocks
    model := first :: (looped.1 ++ last) }

/-- `SeaNetEncoder.__init__` (seanet.py lines 133-247) as a fallible
construction.  The attribute assignments happen first; then the range assert
on `disable_norm_outer_blocks` (lines 169-175) fires, then the loop runs
(its residual-block asserts always pass), then `assert not lstm` (line 231)
fires, then the final layers are appended. -/
def SeaNetEncoder.init (cfg : SeaNetConfig) : Except InitError SeaNetEncoder :=
  let nBlocks := cfg.ratios.reverse.length + 2
  if ¬ (0 ≤ cfg.disable_norm_outer_blocks ∧ cfg.disable_norm_outer_blocks ≤ (nBlocks : Int)) then
    .error (.assertionError "Number of blocks for which to disable norm is invalid.")
  else if cfg.lstm ≠ 0 then
    .error (.assertionError "lstm is not supported")
  else
    .ok (SeaNetEncoder.make cfg)

/-- The state a (successful) `SeaNetDecoder.__init__` leaves behind.
`ratios` is the forward list (`self.ratios = ratios`, seanet.py line 313). -/
structure SeaNetDecoder where
  channels : Nat
  dimension : Nat
  n_filters : Nat
  ratios : List Nat
  n_residual_layers : Nat
  hop_length : Nat
  n_blocks : Nat
  disable_norm_outer_blocks : Int
  model : List Layer
deriving DecidableEq, Repr

/-- The decoder's upsampling loop (seanet.py lines 347-387), recursion over
the forward ratio list threading loop index `i` and multiplier `mult`
(`mult //= 2` after each stage), with
`block_norm = "none" if disable_norm_outer_blocks >= n_blocks - (i + 1) else norm`.
Each iteration appends one activation plus a strided transposed convolution
`mult*n_filters → mult*n_filters // 2` with kernel `ratio*2`, stride `ratio`,
then `n_residual_layers` residual blocks at the halved width (same kernel
size / dilation schedule as the encoder).  The transposed-convolution
construction references `StreamableConvTranspose1d`, a name the module never
imports, so actually executing one iteration raises `NameError`; this
function records the layer descriptors the loop is written to build, and
`SeaNetDecoder.init` accounts for the unresolved name. -/
def SeaNetDecoder.loop (cfg : SeaNetConfig) (nBlocks : Nat) :
    List Nat → Nat → Nat → List Layer × Nat
  | [], _i, mult => ([], mult)
  | ratio :: rest, i, mult =>
    let blockNorm :=
      if cfg.disable_norm_outer_blocks ≥ (nBlocks : Int) - ((i : Int) + 1) then "none"
      else cfg.norm
    let up : List Layer :=
      [Layer.activation cfg.activation,
       Layer.convTranspose
         { inChannels := mult * cfg.n_filters
           outChannels := mult * cfg.n_filters / 2
           kernelSize := ratio * 2
           stride := ratio
           norm := blockNorm
           causal := cfg.causal }]
    let residuals := (List.range cfg.n_residual_layers).map fun j =>
      Layer.resnet (SeaNetResnetBlock.body (mult * cfg.n_filters / 2)
        [cfg.residual_kernel_size, 1] [cfg.dilation_base ^ j, 1]
        cfg.activation blockNorm cfg.causal cfg.pad_mode cfg.compress cfg.true_skip)
    let next := SeaNetDecoder.loop cfg nBlocks rest (i + 1) (mult / 2)
    (up ++ residuals ++ next.1, next.2)

/-- The attribute assignments and layer assembly of `SeaNetDecoder.__init__`
(seanet.py lines 308-404), minus the asserts and the unresolved-name failure
(both handled in `SeaNetDecoder.init`): forward ratios,
`hop_length = prod(ratios)`, `n_blocks = len(ratios) + 2`, then the model
list: initial convolution `dimension → mult*n_filters`
(`mult = 2**len(ratios)`) with norm `"none"` iff
`disable_norm_outer_blocks == n_blocks`, the upsampling loop, a final
activation plus convolution `n_filters → channels` with norm `"none"` iff
`disable_norm_outer_blocks >= 1`, and the optional configured final
activation. -/
def SeaNetDecoder.make (cfg : SeaNetConfig) : SeaNetDecoder :=
  let ratios := cfg.ratios
  let hop := ratios.prod
  let nBlocks := ratios.length + 2
  let mult0 := 2 ^ ratios.length
  let first : Layer := Layer.conv
    { inChannels := cfg.dimension
      outChannels := mult0 * cfg.n_filters
      kernelSize := cfg.kernel_size
      stride := 1
      dilation := 1
      norm := if cfg.disable_norm_outer_blocks = (nBlocks : Int) then "none" else cfg.norm
      causal := cfg.causal
      padMode := cfg.pad_mode }
  let looped := SeaNetDecoder.loop cfg nBlocks ratios 0 mult0
  let last : List Layer :=
    [Layer.activation cfg.activation,
     Layer.conv
       { inChannels := cfg.n_filters
         outChannels := cfg.channels
         kernelSize := cfg.last_kernel_size
         stride := 1
         dilation := 1
         norm := if cfg.disable_norm_outer_blocks ≥ 1 then "none" else cfg.norm
         causal := cfg.causal
         padMode := cfg.pad_mode }]
  let finalAct : List Layer :=
    match cfg.final_activation with
    | some f => [Layer.activation f]
    | none => []
  { channels := cfg.channels
    dimension := cfg.dimension
    n_filters := cfg.n_filters
    ratios := ratios
    n_residual_layers := cfg.n_residual_layers
    hop_length := hop
    n_blocks := nBlocks
    disable_norm_outer_blocks := cfg.disable_norm_outer_blocks
    model := first :: (looped.1 ++ last ++ finalAct) }

/-- `SeaNetDecoder.__init__` (seanet.py lines 285-404) as a fallible
construction.  Execution order: attribute assignments, the range assert on
`disable_norm_outer_blocks` (lines 321-327), the initial convolution,
`assert not lstm` (line 344), then the upsampling loop.  The loop body
references `StreamableConvTranspose1d` (line 356), which the module never
imports (line 12 imports only `StreamableConv1d`), so the first iteration
raises `NameError`; construction therefore only completes when the ratio
list is empty. -/
def SeaNetDecoder.init (cfg : SeaNetConfig) : Except InitError SeaNetDecoder :=
  let nBlocks := cfg.ratios.length + 2
  if ¬ (0 ≤ cfg.disable_norm_outer_blocks ∧ cfg.disable_norm_outer_blocks ≤ (nBlocks : Int)) then
    .error (.assertionError "Number of blocks for which to disable norm is invalid.")
  else if cfg.lstm ≠ 0 then
    .error (.assertionError "lstm is not supported")
  else if cfg.ratios ≠ [] then
    .error (.nameError "StreamableConvTranspose1d")
  else
    .ok (SeaNetDecoder.make cfg)

/-- The `SeaNetConfig` holding the Python default argument values of
`SeaNetEncoder.__init__` / `SeaNetDecoder.__init__` (seanet.py lines 133-152
and 285-307). -/
def defaultConfig : SeaNetConfig :=
  { dimension := 128
    channels := 1
    causal := false
    n_filters := 32
    n_residual_layers := 3
    ratios := [8, 5, 4, 2]
    activation := "ELU"
    norm := "none"
    kernel_size := 7
    residual_kernel_size := 3
    last_kernel_size := 7
    dilation_base := 2
    pad_mode := "reflect"
    true_skip := true
    compress := 2
    lstm := 0
    disable_norm_outer_blocks := 0
    final_activation := none }

/-! ## Structural extractions

Per-stage parameters read off the assembled layer lists: each structural
stage of a tower instantiates exactly one (possibly transposed) convolution
at top level (residual blocks wrap their convolutions inside
`Layer.resnet`), so the stage-by-stage normalization choice and the
stage-convolution parameters are recovered by a `filterMap` over the model. -/

/-- The norm kind a top-level (transposed) convolution was constructed with. -/
def layerConvNorm : Layer → Option String
  | .conv c => some c.norm
  | .convTranspose c => some c.norm
  | _ => none

/-- `(in_channels, out_channels, kernel_size, stride)` of a top-level
convolution. -/
def layerConvParams : Layer → Option (Nat × Nat × Nat × Nat)
  | .conv c => some (c.inChannels, c.outChannels, c.kernelSize, c.stride)
  | _ => none

/-- `(in_channels, out_channels, kernel_size, stride)` of a top-level
transposed convolution. -/
def layerConvTrParams : Layer → Option (Nat × Nat × Nat × Nat)
  | .convTranspose c => some (c.inChannels, c.outChannels, c.kernelSize, c.stride)
  | _ => none

/-- The dilations of a residual block's branch convolutions, in order. -/
def resnetBranchDilations (b : ResnetBlock) : List Nat :=
  b.branch.map fun p => p.2.dilation

/-- The dilations of a residual block's branch convolutions, in order. -/
def layerResnetDilations : Layer → Option (List Nat)
  | .resnet b => some (resnetBranchDilations b)
  | _ => none

/-- The per-stage normalization kinds of the assembled encoder: one entry per
structural stage (initial conv, one strided conv per ratio stage, final
conv). -/
def SeaNetEncoder.stageNorms (cfg : SeaNetConfig) : List String :=
  (SeaNetEncoder.make cfg).model.filterMap layerConvNorm

/-- The per-stage normalization kinds of the assembled decoder: one entry per
structural stage (initial conv, one transposed conv per ratio stage, final
conv). -/
def SeaNetDecoder.stageNorms (cfg : SeaNetConfig) : List String :=
  (SeaNetDecoder.make cfg).model.filterMap layerConvNorm

/-- The `(in, out, kernel, stride)` parameters of the encoder's per-stage
strided (downsampling) convolutions, in stage order. -/
def SeaNetEncoder.stageConvs (cfg : SeaNetConfig) : List (Nat × Nat × Nat × Nat) :=
  ((SeaNetEncoder.loop cfg cfg.ratios.reverse 0 1).1).filterMap layerConvParams

/-- The `(in, out, kernel, stride)` parameters of the decoder's per-stage
strided transposed (upsampling) convolutions, in stage order. -/
def SeaNetDecoder.stageConvTrs (cfg : SeaNetConfig) : List (Nat × Nat × Nat × Nat) :=
  ((SeaNetDecoder.loop cfg (cfg.ratios.length + 2) cfg.ratios 0
      (2 ^ cfg.ratios.length)).1).filterMap layerConvTrParams

/-- The branch-convolution dilation lists of all the encoder's residual
blocks, in pipeline order. -/
def SeaNetEncoder.resnetDilations (cfg : SeaNetConfig) : List (List Nat) :=
  (SeaNetEncoder.make cfg).model.filterMap layerResnetDilations

/-- The branch-convolution dilation lists of all the decoder's residual
blocks, in pipeline order. -/
def SeaNetDecoder.resnetDilations (cfg : SeaNetConfig) : List (List Nat) :=
  (SeaNetDecoder.make cfg).model.filterMap layerResnetDilations

/-! ## Helper lemmas -/

/-- `filterMap` ignores a run of residual-block layers when the extraction
returns `none` on residual blocks. -/
theorem filterMap_map_resnet_none {α : Type} (f : Layer → Option α)
    (hf : ∀ b, f (Layer.resnet b) = none) (l : List Nat) (g : Nat → ResnetBlock) :
    (l.map fun j => Layer.resnet (g j)).filterMap f = [] := by
  induction l with
  | nil => rfl
  | cons a t ih => simp [List.filterMap_cons, hf, ih]

/-- `filterMap` over a run of residual-block layers when the extraction
succeeds on every residual block. -/
theorem filterMap_map_resnet_some {α : Type} (f : Layer → Option α)
    (e : ResnetBlock → α) (hf : ∀ b, f (Layer.resnet b) = some (e b))
    (l : List Nat) (g : Nat → ResnetBlock) :
    (l.map fun j => Layer.resnet (g j)).filterMap f = l.map fun j => e (g j) := by
  induction l with
  | nil => rfl
  | cons a t ih => simp [List.filterMap_cons, hf, ih]

/-- Shifting the start index of `enumFrom` inside a `map`. -/
theorem map_enumFrom_succ {α β : Type} (l : List α) (n : Nat) (f : Nat × α → β) :
    (List.enumFrom (n + 1) l).map f =
      (List.enumFrom n l).map fun p => f (p.1 + 1, p.2) := by
  induction l generalizing n with
  | nil => rfl
  | cons a t ih => simpa using ih (n + 1)

/-- The norms of the convolutions instantiated by the encoder's downsampling
loop: the stage at loop index `t` uses `"none"` iff
`disable_norm_outer_blocks ≥ t + 2`. -/
theorem encoder_loop_norms (cfg : SeaNetConfig) (rs : List Nat) (i mult : Nat) :
    ((SeaNetEncoder.loop cfg rs i mult).1).filterMap layerConvNorm =
      (List.enumFrom i rs).map fun p =>
        if cfg.disable_norm_outer_blocks ≥ (p.1 : Int) + 2 then "none" else cfg.norm := by
  induction rs generalizing i mult with
  | nil => rfl
  | cons r rest ih =>
    simp only [SeaNetEncoder.loop, List.enumFrom_cons, List.map_cons]
    rw [List.filterMap_append, List.filterMap_append,
      filterMap_map_resnet_none layerConvNorm (fun _ => rfl)]
    simp [List.filterMap_cons, layerConvNorm, ih]

/-- Encoder construction succeeds (returning the assembled encoder) whenever
the §7 configuration-time conditions hold. -/
theorem encoder_init_eq_make (cfg : SeaNetConfig)
    (h2 : 0 ≤ cfg.disable_norm_outer_blocks)
    (h3 : cfg.disable_norm_outer_blocks ≤ ((cfg.ratios.length + 2 : Nat) : Int))
    (h1 : cfg.lstm = 0) :
    SeaNetEncoder.init cfg = .ok (SeaNetEncoder.make cfg) := by
  have hcond : 0 ≤ cfg.disable_norm_outer_blocks ∧
      cfg.disable_norm_outer_blocks ≤ ((cfg.ratios.reverse.length + 2 : Nat) : Int) := by
    refine ⟨h2, ?_⟩
    rw [List.length_reverse]
    exact h3
  simp only [SeaNetEncoder.init]
  rw [if_neg (not_not_intro hcond), if_neg (by simp [h1])]

/-- Decoder construction only reaches completion on an empty ratio list
(otherwise the loop's reference to the unimported
`StreamableConvTranspose1d` raises `NameError`); in that case, under the §7
conditions, it returns the assembled decoder. -/
theorem decoder_init_eq_make (cfg : SeaNetConfig)
    (h0 : cfg.ratios = [])
    (h2 : 0 ≤ cfg.disable_norm_outer_blocks)
    (h3 : cfg.disable_norm_outer_blocks ≤ ((cfg.ratios.length + 2 : Nat) : Int))
    (h1 : cfg.lstm = 0) :
    SeaNetDecoder.init cfg = .ok (SeaNetDecoder.make cfg) := by
  have hcond : 0 ≤ cfg.disable_norm_outer_blocks ∧
      cfg.disable_norm_outer_blocks ≤ ((cfg.ratios.length + 2 : Nat) : Int) :=
    ⟨h2, h3⟩
  simp only [SeaNetDecoder.init]
  rw [if_neg (not_not_intro hcond), if_neg (by simp [h1]), if_neg (by simp [h0])]

/-- The norms of the transposed convolutions instantiated by the decoder's
upsampling loop: the stage at loop index `t` uses `"none"` iff
`disable_norm_outer_blocks ≥ n_blocks - (t + 1)`. -/
theorem decoder_loop_norms (cfg : SeaNetConfig) (nB : Nat) (rs : List Nat)
    (i mult : Nat) :
    ((SeaNetDecoder.loop cfg nB rs i mult).1).filterMap layerConvNorm =
      (List.enumFrom i rs).map fun p =>
        if cfg.disable_norm_outer_blocks ≥ (nB : Int) - ((p.1 : Int) + 1) then "none"
        else cfg.norm := by
  induction rs generalizing i mult with
  | nil => rfl
  | cons r rest ih =>
    simp only [SeaNetDecoder.loop, List.enumFrom_cons, List.map_cons]
    rw [List.filterMap_append, List.filterMap_append,
      filterMap_map_resnet_none layerConvNorm (fun _ => rfl)]
    simp [List.filterMap_cons, layerConvNorm, ih]

/-- The `(in, out, kernel, stride)` parameters of the strided convolutions
instantiated by the encoder's downsampling loop, starting at channel
multiplier `mult`: the stage at loop index `t` downsamples with a
convolution `mult·2^t·n_filters → mult·2^t·n_filters·2`, kernel `ratio·2`,
stride `ratio`. -/
theorem encoder_loop_convs (cfg : SeaNetConfig) (rs : List Nat) (i mult : Nat) :
    ((SeaNetEncoder.loop cfg rs i mult).1).filterMap layerConvParams =
      (List.enumFrom 0 rs).map fun p =>
        (mult * 2 ^ p.1 * cfg.n_filters, mult * 2 ^ p.1 * cfg.n_filters * 2,
          p.2 * 2, p.2) := by
  induction rs generalizing i mult with
  | nil => rfl
  | cons r rest ih =>
    simp only [SeaNetEncoder.loop, List.enumFrom_cons, List.map_cons]
    rw [List.filterMap_append, List.filterMap_append,
      filterMap_map_resnet_none layerConvParams (fun _ => rfl), map_enumFrom_succ]
    simp only [List.filterMap_cons, List.filterMap_nil, layerConvParams,
      List.nil_append, List.singleton_append, List.append_nil, pow_zero, mul_one, ih]
    congr 1
    apply List.map_congr_left
    intro p _
    have h1 : mult * 2 * 2 ^ p.1 = mult * 2 ^ (p.1 + 1) := by ring
    rw [h1]

/-- The `(in, out, kernel, stride)` parameters of the transposed convolutions
instantiated by the decoder's upsampling loop, starting at channel
multiplier `2^K` with at least as many halvings available as stages: the
stage at loop index `t` upsamples with a transposed convolution
`2^(K-t)·n_filters → 2^(K-t)·n_filters / 2`, kernel `ratio·2`,
stride `ratio`. -/
theorem decoder_loop_convTrs (cfg : SeaNetConfig) (nB : Nat) (rs : List Nat) :
    ∀ (i K : Nat), rs.length ≤ K →
    ((SeaNetDecoder.loop cfg nB rs i (2 ^ K)).1).filterMap layerConvTrParams =
      (List.enumFrom 0 rs).map fun p =>
        (2 ^ (K - p.1) * cfg.n_filters, 2 ^ (K - p.1) * cfg.n_filters / 2,
          p.2 * 2, p.2) := by
  induction rs with
  | nil => intro i K _; rfl
  | cons r rest ih =>
    intro i K hK
    have hK1 : 1 ≤ K := le_trans (Nat.succ_le_succ (Nat.zero_le _)) hK
    have hdiv : (2 : Nat) ^ K / 2 = 2 ^ (K - 1) := by
      conv_lhs => rw [show K = (K - 1) + 1 by omega]
      rw [pow_succ, Nat.mul_div_cancel _ (by norm_num)]
    simp only [SeaNetDecoder.loop, List.enumFrom_cons, List.map_cons]
    rw [List.filterMap_append, List.filterMap_append,
      filterMap_map_resnet_none layerConvTrParams (fun _ => rfl), map_enumFrom_succ,
      hdiv, ih (i + 1) (K - 1) (by simp at hK ⊢; omega)]
    simp only [List.filterMap_cons, List.filterMap_nil, layerConvTrParams,
      List.nil_append, List.singleton_append, List.append_nil, Nat.sub_zero]
    congr 1
    apply List.map_congr_left
    intro p _
    have h1 : K - 1 - p.1 = K - (p.1 + 1) := by omega
    rw [h1]

/-- The dilation lists of the residual blocks instantiated by the encoder's
downsampling loop: each of the `rs.length` stages contributes
`n_residual_layers` blocks whose branch dilations are `[dilation_base^j, 1]`
for `j = 0, …, n_residual_layers - 1`. -/
theorem encoder_loop_dilations (cfg : SeaNetConfig) (rs : List Nat)
    (i mult : Nat) :
    ((SeaNetEncoder.loop cfg rs i mult).1).filterMap layerResnetDilations =
      (List.replicate rs.length
        ((List.range cfg.n_residual_layers).map fun j =>
          [cfg.dilation_base ^ j, 1])).flatten := by
  induction rs generalizing i mult with
  | nil => rfl
  | cons r rest ih =>
    simp only [SeaNetEncoder.loop, List.replicate_succ, List.flatten_cons]
    rw [List.filterMap_append, List.filterMap_append,
      filterMap_map_resnet_some layerResnetDilations resnetBranchDilations
        (fun _ => rfl)]
    simp only [List.filterMap_cons, List.filterMap_nil, layerResnetDilations,
      List.nil_append, List.append_nil, ih]
    try congr 1
    try apply List.map_congr_left
    try intro j hj
    try rfl

/-- The dilation lists of the residual blocks instantiated by the decoder's
upsampling loop: identical schedule to the encoder's. -/
theorem decoder_loop_dilations (cfg : SeaNetConfig) (nB : Nat) (rs : List Nat)
    (i mult : Nat) :
    ((SeaNetDecoder.loop cfg nB rs i mult).1).filterMap layerResnetDilations =
      (List.replicate rs.length
        ((List.range cfg.n_residual_layers).map fun j =>
          [cfg.dilation_base ^ j, 1])).flatten := by
  induction rs generalizing i mult with
  | nil => rfl
  | cons r rest ih =>
    simp only [SeaNetDecoder.loop, List.replicate_succ, List.flatten_cons]
    rw [List.filterMap_append, List.filterMap_append,
      filterMap_map_resnet_some layerResnetDilations resnetBranchDilations
        (fun _ => rfl)]
    simp only [List.filterMap_cons, List.filterMap_nil, layerResnetDilations,
      List.nil_append, List.append_nil, ih]
    try congr 1
    try apply List.map_congr_left
    try intro j hj
    try rfl

/-! ## Theorems -/

/-- C1: For a valid `disable_norm_outer_blocks = k`, the structural stage at
index `s` (stage 0 = initial conv, stages `1 … len(ratios)` = ratio stages,
stage `n_blocks - 1` = final conv) is built with normalization `"none"`
exactly when `s < k` in the encoder and exactly when `s ≥ n_blocks - k` in
the decoder (the last `k` stages); every other stage keeps the configured
normalization kind. -/
theorem norm_disable_boundary (cfg : SeaNetConfig)
    (h2 : 0 ≤ cfg.disable_norm_outer_blocks)
    (h3 : cfg.disable_norm_outer_blocks ≤ ((cfg.ratios.length + 2 : Nat) : Int)) :
    SeaNetEncoder.stageNorms cfg =
      (List.range (cfg.ratios.length + 2)).map
        (fun s : Nat => if (s : Int) < cfg.disable_norm_outer_blocks then "none"
          else cfg.norm) ∧
    SeaNetDecoder.stageNorms cfg =
      (List.range (cfg.ratios.length + 2)).map
        (fun s : Nat => if ((cfg.ratios.length + 2 : Nat) : Int) -
            cfg.disable_norm_outer_blocks ≤ (s : Int) then "none"
          else cfg.norm) := by
  have hrange : ∀ n : Nat, List.range (n + 2) =
      0 :: ((List.range n).map Nat.succ ++ [n + 1]) := by
    intro n
    rw [List.range_succ_eq_map, List.range_succ]
    simp
  constructor
  · simp only [SeaNetEncoder.stageNorms, SeaNetEncoder.make]
    simp only [List.filterMap_cons, layerConvNorm]
    rw [List.filterMap_append, encoder_loop_norms]
    simp only [List.filterMap_cons, List.filterMap_nil, layerConvNorm]
    rw [hrange, List.map_cons, List.map_append, List.map_map, List.map_cons,
      List.map_nil]
    have hfst : (fun p : Nat × Nat =>
        if cfg.disable_norm_outer_blocks ≥ (p.1 : Int) + 2 then "none" else cfg.norm)
        = (fun t : Nat =>
            if cfg.disable_norm_outer_blocks ≥ (t : Int) + 2 then "none" else cfg.norm)
          ∘ Prod.fst := rfl
    rw [hfst, ← List.map_map, List.enumFrom_map_fst, List.length_reverse,
      ← List.range_eq_range']
    refine List.cons_eq_cons.mpr ⟨if_congr (by omega) rfl rfl, ?_⟩
    refine congrArg₂ (· ++ ·) ?_ ?_
    · apply List.map_congr_left
      intro t _
      simp only [Function.comp_apply]
      exact if_congr (by push_cast; omega) rfl rfl
    · exact congrArg (fun x => [x]) (if_congr (by omega) rfl rfl)
  · simp only [SeaNetDecoder.stageNorms, SeaNetDecoder.make]
    simp only [List.filterMap_cons, layerConvNorm]
    rw [List.filterMap_append, List.filterMap_append, decoder_loop_norms]
    have hfin : (match cfg.final_activation with
        | some f => [Layer.activation f]
        | none => ([] : List Layer)).filterMap layerConvNorm = [] := by
      cases cfg.final_activation <;> rfl
    rw [hfin]
    simp only [List.filterMap_cons, List.filterMap_nil, layerConvNorm,
      List.append_nil]
    rw [hrange, List.map_cons, List.map_append, List.map_map, List.map_cons,
      List.map_nil]
    have hfst : (fun p : Nat × Nat =>
        if cfg.disable_norm_outer_blocks ≥
            ((cfg.ratios.length + 2 : Nat) : Int) - ((p.1 : Int) + 1) then "none"
        else cfg.norm)
        = (fun t : Nat =>
            if cfg.disable_norm_outer_blocks ≥
                ((cfg.ratios.length + 2 : Nat) : Int) - ((t : Int) + 1) then "none"
            else cfg.norm)
          ∘ Prod.fst := rfl
    rw [hfst, ← List.map_map, List.enumFrom_map_fst, ← List.range_eq_range']
    refine List.cons_eq_cons.mpr ⟨if_congr (by omega) rfl rfl, ?_⟩
    refine congrArg₂ (· ++ ·) ?_ ?_
    · apply List.map_congr_left
      intro t _
      simp only [Function.comp_apply]
      exact if_congr (by push_cast; omega) rfl rfl
    · exact congrArg (fun x => [x]) (if_congr (by omega) rfl rfl)

/-- Witness for C1 at the default configuration amended to
`disable_norm_outer_blocks = 3`, `norm = "weight_norm"`: encoder stages
0, 1, 2 and decoder stages 3, 4, 5 are the normalization-disabled ones. -/
theorem norm_disable_boundary_witness :
    SeaNetEncoder.stageNorms
        { defaultConfig with disable_norm_outer_blocks := 3, norm := "weight_norm" } =
      (List.range 6).map (fun s : Nat => if (s : Int) < 3 then "none" else "weight_norm") ∧
    SeaNetDecoder.stageNorms
        { defaultConfig with disable_norm_outer_blocks := 3, norm := "weight_norm" } =
      (List.range 6).map (fun s : Nat => if (6 : Int) - 3 ≤ (s : Int) then "none"
        else "weight_norm") :=
  norm_disable_boundary
    { defaultConfig with disable_norm_outer_blocks := 3, norm := "weight_norm" }
    (by decide) (by decide)

/-- C7: the encoder's stage at loop index `i` ends in a strided convolution
`2^i·n_filters → 2^i·n_filters·2` with kernel `ratio·2` and stride `ratio`
(multiplier starting at 1 and doubling per stage); the decoder's stage at
loop index `i` begins with a strided transposed convolution
`2^(len-i)·n_filters → 2^(len-i)·n_filters / 2` with kernel `ratio·2` and
stride `ratio` (multiplier starting at `2^len(ratios)` and halving per
stage); consequently the decoder's `(out, in)` channel-width pairs are the
encoder's `(in, out)` pairs in reverse. -/
theorem channel_width_mirror (cfg : SeaNetConfig) :
    SeaNetEncoder.stageConvs cfg =
      (List.enumFrom 0 cfg.ratios.reverse).map (fun p =>
        (2 ^ p.1 * cfg.n_filters, 2 ^ p.1 * cfg.n_filters * 2, p.2 * 2, p.2)) ∧
    SeaNetDecoder.stageConvTrs cfg =
      (List.enumFrom 0 cfg.ratios).map (fun p =>
        (2 ^ (cfg.ratios.length - p.1) * cfg.n_filters,
          2 ^ (cfg.ratios.length - p.1) * cfg.n_filters / 2, p.2 * 2, p.2)) ∧
    (SeaNetDecoder.stageConvTrs cfg).map (fun q => (q.2.1, q.1)) =
      ((SeaNetEncoder.stageConvs cfg).map fun q => (q.1, q.2.1)).reverse := by
  have henc : SeaNetEncoder.stageConvs cfg =
      (List.enumFrom 0 cfg.ratios.reverse).map (fun p =>
        (2 ^ p.1 * cfg.n_filters, 2 ^ p.1 * cfg.n_filters * 2, p.2 * 2, p.2)) := by
    rw [SeaNetEncoder.stageConvs, encoder_loop_convs]
    simp
  have hdec : SeaNetDecoder.stageConvTrs cfg =
      (List.enumFrom 0 cfg.ratios).map (fun p =>
        (2 ^ (cfg.ratios.length - p.1) * cfg.n_filters,
          2 ^ (cfg.ratios.length - p.1) * cfg.n_filters / 2, p.2 * 2, p.2)) := by
    rw [SeaNetDecoder.stageConvTrs, decoder_loop_convTrs cfg _ _ 0 _ le_rfl]
  refine ⟨henc, hdec, ?_⟩
  rw [henc, hdec, List.map_map, List.map_map]
  apply List.ext_getElem
  · simp
  · intro t h1 h2
    simp only [List.getElem_map, List.getElem_reverse, List.getElem_enumFrom,
      List.length_map, List.enumFrom_length, List.length_reverse,
      Function.comp_apply, zero_add]
    have hlen : t < cfg.ratios.length := by simpa using h1
    have hsub : cfg.ratios.length - t =
        (cfg.ratios.length - 1 - t) + 1 := by omega
    rw [hsub, pow_succ]
    simp only [Prod.mk.injEq]
    refine ⟨?_, ?_⟩
    · rw [show 2 ^ (cfg.ratios.length - 1 - t) * 2 * cfg.n_filters =
        2 ^ (cfg.ratios.length - 1 - t) * cfg.n_filters * 2 from by ring,
        Nat.mul_div_cancel _ (by norm_num)]
    · ring

/-- Witness for C7 is unnecessary (no propositional hypotheses), but the
default configuration instantiates it concretely. -/
theorem channel_width_mirror_witness :
    SeaNetEncoder.stageConvs defaultConfig =
      [(32, 64, 4, 2), (64, 128, 8, 4), (128, 256, 10, 5), (256, 512, 16, 8)] ∧
    SeaNetDecoder.stageConvTrs defaultConfig =
      [(512, 256, 16, 8), (256, 128, 10, 5), (128, 64, 8, 4), (64, 32, 4, 2)] ∧
    (SeaNetDecoder.stageConvTrs defaultConfig).map (fun q => (q.2.1, q.1)) =
      ((SeaNetEncoder.stageConvs defaultConfig).map fun q => (q.1, q.2.1)).reverse := by
  refine ⟨by decide, by decide, ?_⟩
  exact (channel_width_mirror defaultConfig).2.2

/-- C8: in both towers, the residual blocks appear stage by stage, the `j`-th
block of every stage being constructed with branch dilations
`[dilation_base^j, 1]` (first convolution `dilation_base^j`, second
convolution `1`), the schedule restarting at `dilation_base^0 = 1` with each
new stage. -/
theorem residual_dilation_schedule (cfg : SeaNetConfig) :
    SeaNetEncoder.resnetDilations cfg =
      (List.replicate cfg.ratios.length
        ((List.range cfg.n_residual_layers).map fun j =>
          [cfg.dilation_base ^ j, 1])).flatten ∧
    SeaNetDecoder.resnetDilations cfg =
      (List.replicate cfg.ratios.length
        ((List.range cfg.n_residual_layers).map fun j =>
          [cfg.dilation_base ^ j, 1])).flatten := by
  constructor
  · simp only [SeaNetEncoder.resnetDilations, SeaNetEncoder.make]
    simp only [List.filterMap_cons, layerResnetDilations]
    rw [List.filterMap_append, encoder_loop_dilations]
    simp [List.length_reverse, layerResnetDilations, List.filterMap_cons]
  · simp only [SeaNetDecoder.resnetDilations, SeaNetDecoder.make]
    simp only [List.filterMap_cons, layerResnetDilations]
    rw [List.filterMap_append, List.filterMap_append, decoder_loop_dilations]
    have hfin : (match cfg.final_activation with
        | some f => [Layer.activation f]
        | none => ([] : List Layer)).filterMap layerResnetDilations = [] := by
      cases cfg.final_activation <;> rfl
    rw [hfin]
    simp [layerResnetDilations, List.filterMap_cons]

/-- Witness for C8 is unnecessary (no propositional hypotheses), but the
default configuration instantiates it concretely: per stage, first-conv
dilations 1, 2, 4 across the three residual blocks, restarting each stage. -/
theorem residual_dilation_schedule_witness :
    SeaNetEncoder.resnetDilations defaultConfig =
      (List.replicate 4 [[1, 1], [2, 1], [4, 1]]).flatten ∧
    SeaNetDecoder.resnetDilations defaultConfig =
      (List.replicate 4 [[1, 1], [2, 1], [4, 1]]).flatten := by
  have h := residual_dilation_schedule defaultConfig
  constructor
  · rw [h.1]; decide
  · rw [h.2]; decide

/-- C2: For every configuration, the encoder's `hop_length` (computed over the
reversed ratio list, seanet.py line 166) and the decoder's `hop_length`
(computed over the forward list, line 317) both equal the product of the
ratios; for the default ratios `[8, 5, 4, 2]` both equal `320`.  The
attribute assignments precede every construction-time failure point, so this
holds for the attributes any construction attempt computes. -/
theorem hop_length_eq_prod_ratios :
    (∀ cfg : SeaNetConfig,
      (SeaNetEncoder.make cfg).hop_length = cfg.ratios.prod ∧
      (SeaNetDecoder.make cfg).hop_length = cfg.ratios.prod) ∧
    (SeaNetEncoder.make defaultConfig).hop_length = 320 ∧
    (SeaNetDecoder.make defaultConfig).hop_length = 320 := by
  refine ⟨fun cfg => ⟨?_, ?_⟩, by decide, by decide⟩
  · simp [SeaNetEncoder.make, List.prod_reverse]
  · simp [SeaNetDecoder.make]

/-- C9: For every configuration, both towers' `n_blocks` attribute equals
`len(ratios) + 2` (seanet.py lines 167 and 318). -/
theorem n_blocks_eq_len_ratios_add_two (cfg : SeaNetConfig) :
    (SeaNetEncoder.make cfg).n_blocks = cfg.ratios.length + 2 ∧
    (SeaNetDecoder.make cfg).n_blocks = cfg.ratios.length + 2 := by
  constructor
  · simp [SeaNetEncoder.make]
  · simp [SeaNetDecoder.make]

/-- Witness for C9 at the default configuration: `n_blocks = 4 + 2 = 6`. -/
theorem n_blocks_witness :
    (SeaNetEncoder.make defaultConfig).n_blocks = 4 + 2 ∧
    (SeaNetDecoder.make defaultConfig).n_blocks = 4 + 2 :=
  n_blocks_eq_len_ratios_add_two defaultConfig

/-- C5 (code bug): the default configuration satisfies every §7
configuration-time condition (`lstm == 0`,
`0 ≤ disable_norm_outer_blocks ≤ n_blocks`, and the towers only ever build
residual blocks with matched 2-element kernel/dilation lists), and the
encoder indeed constructs — yet decoder construction fails: its upsampling
loop references `StreamableConvTranspose1d` (seanet.py line 356) while the
module imports only `StreamableConv1d` (line 12), so the first loop
iteration raises `NameError`. -/
theorem decoder_default_config_name_error :
    defaultConfig.lstm = 0 ∧
    0 ≤ defaultConfig.disable_norm_outer_blocks ∧
    defaultConfig.disable_norm_outer_blocks ≤ (defaultConfig.ratios.length + 2 : Int) ∧
    SeaNetEncoder.init defaultConfig = .ok (SeaNetEncoder.make defaultConfig) ∧
    SeaNetDecoder.init defaultConfig =
      .error (.nameError "StreamableConvTranspose1d") := by
  refine ⟨rfl, by decide, by decide, ?_, ?_⟩
  · simp [SeaNetEncoder.init, defaultConfig]
  · simp [SeaNetDecoder.init, defaultConfig]

/-- C4: constructing a tower with `lstm ≠ 0`, or a residual block with
mismatched kernel/dilation list lengths, or a tower with
`disable_norm_outer_blocks` outside `[0, n_blocks]`, fails at construction
(the result carries no usable instance). -/
theorem construction_guard_failures (cfg : SeaNetConfig) (dim : Nat)
    (ks ds : List Nat) (act norm : String) (causal : Bool) (padMode : String)
    (compress : Nat) (trueSkip : Bool) :
    (cfg.lstm ≠ 0 →
      (SeaNetEncoder.init cfg).toOption = none ∧
      (SeaNetDecoder.init cfg).toOption = none) ∧
    (ks.length ≠ ds.length →
      (SeaNetResnetBlock.init dim ks ds act norm causal padMode compress
        trueSkip).toOption = none) ∧
    ((cfg.disable_norm_outer_blocks < 0 ∨
        (cfg.ratios.length + 2 : Int) < cfg.disable_norm_outer_blocks) →
      (SeaNetEncoder.init cfg).toOption = none ∧
      (SeaNetDecoder.init cfg).toOption = none) := by
  refine ⟨fun h => ⟨?_, ?_⟩, fun h => ?_, fun h => ⟨?_, ?_⟩⟩
  · simp only [SeaNetEncoder.init]
    split_ifs <;> simp_all [Except.toOption]
  · simp only [SeaNetDecoder.init]
    split_ifs <;> simp_all [Except.toOption]
  · simp only [SeaNetResnetBlock.init]
    split_ifs <;> simp_all [Except.toOption]
  · have hc : ¬ (0 ≤ cfg.disable_norm_outer_blocks ∧
        cfg.disable_norm_outer_blocks ≤ ((cfg.ratios.reverse.length + 2 : Nat) : Int)) := by
      rw [List.length_reverse]
      omega
    simp only [SeaNetEncoder.init]
    rw [if_pos hc]
    rfl
  · have hc : ¬ (0 ≤ cfg.disable_norm_outer_blocks ∧
        cfg.disable_norm_outer_blocks ≤ ((cfg.ratios.length + 2 : Nat) : Int)) := by
      omega
    simp only [SeaNetDecoder.init]
    rw [if_pos hc]
    rfl

/-- Witness for C4 at concrete inputs: `lstm = 2`, kernel sizes `[3]` against
dilations `[1, 1]`, and `disable_norm_outer_blocks = -1`. -/
theorem construction_guard_failures_witness :
    ((SeaNetEncoder.init { defaultConfig with lstm := 2 }).toOption = none ∧
      (SeaNetDecoder.init { defaultConfig with lstm := 2 }).toOption = none) ∧
    ((SeaNetResnetBlock.init 4 [3] [1, 1] "ELU" "none" false "reflect" 2
        true).toOption = none) ∧
    ((SeaNetEncoder.init
        { defaultConfig with disable_norm_outer_blocks := -1 }).toOption = none ∧
      (SeaNetDecoder.init
        { defaultConfig with disable_norm_outer_blocks := -1 }).toOption = none) :=
  ⟨(construction_guard_failures { defaultConfig with lstm := 2 } 4 [3] [1, 1]
      "ELU" "none" false "reflect" 2 true).1 (by decide),
   (construction_guard_failures defaultConfig 4 [3] [1, 1]
      "ELU" "none" false "reflect" 2 true).2.1 (by decide),
   (construction_guard_failures { defaultConfig with disable_norm_outer_blocks := -1 }
      4 [3] [1, 1] "ELU" "none" false "reflect" 2 true).2.2 (by decide)⟩

/-- C10 counterexample: with `ratios = []` and a configured final activation
(`Tanh`), decoder construction succeeds but its pipeline has four layers —
initial convolution, activation, final convolution, *and* the final bounding
nonlinearity appended by seanet.py lines 400-403 — so the pipeline does not
consist only of the initial convolution, one activation, and the final
convolution. -/
theorem empty_ratios_decoder_has_final_activation :
    ((SeaNetDecoder.init
        { defaultConfig with ratios := [], final_activation := some "Tanh" }).toOption.map
      fun d => d.model.length) = some 4 ∧
    ((SeaNetDecoder.init
        { defaultConfig with ratios := [], final_activation := some "Tanh" }).toOption.map
      fun d => d.model.getLast?) = some (some (.activation "Tanh")) := by
  constructor <;> rfl

/-- C10 (amended): with an empty ratio list and the remaining validity
conditions, both towers construct, with `hop_length = 1` and `n_blocks = 2`,
and each pipeline is exactly the initial convolution, one activation and the
final convolution, except that the decoder additionally appends its
configured final bounding nonlinearity when one is set; in particular there
are no residual blocks and no resampling layers. -/
theorem empty_ratios_construction (cfg : SeaNetConfig) (h0 : cfg.ratios = [])
    (h1 : cfg.lstm = 0) (h2 : 0 ≤ cfg.disable_norm_outer_blocks)
    (h3 : cfg.disable_norm_outer_blocks ≤ 2) :
    SeaNetEncoder.init cfg = .ok (SeaNetEncoder.make cfg) ∧
    SeaNetDecoder.init cfg = .ok (SeaNetDecoder.make cfg) ∧
    (SeaNetEncoder.make cfg).hop_length = 1 ∧
    (SeaNetEncoder.make cfg).n_blocks = 2 ∧
    (SeaNetDecoder.make cfg).hop_length = 1 ∧
    (SeaNetDecoder.make cfg).n_blocks = 2 ∧
    (SeaNetEncoder.make cfg).model.map Layer.kind =
      [.conv, .activation, .conv] ∧
    (SeaNetDecoder.make cfg).model.map Layer.kind =
      [.conv, .activation, .conv] ++
        (match cfg.final_activation with
         | some _ => [LayerKind.activation]
         | none => []) := by
  refine ⟨?_, ?_, ?_, ?_, ?_, ?_, ?_, ?_⟩
  · exact encoder_init_eq_make cfg h2 (by simp [h0]; omega) h1
  · exact decoder_init_eq_make cfg h0 h2 (by simp [h0]; omega) h1
  · simp [SeaNetEncoder.make, h0]
  · simp [SeaNetEncoder.make, h0]
  · simp [SeaNetDecoder.make, h0]
  · simp [SeaNetDecoder.make, h0]
  · simp [SeaNetEncoder.make, SeaNetEncoder.loop, h0, Layer.kind]
  · cases hf : cfg.final_activation <;>
      simp [SeaNetDecoder.make, SeaNetDecoder.loop, h0, hf, Layer.kind]

/-- Witness for C10 (amended) at `ratios = []`, `final_activation = Tanh`
over the remaining default configuration. -/
theorem empty_ratios_construction_witness :
    SeaNetEncoder.init { defaultConfig with ratios := [], final_activation := some "Tanh" } =
      .ok (SeaNetEncoder.make { defaultConfig with ratios := [], final_activation := some "Tanh" }) ∧
    SeaNetDecoder.init { defaultConfig with ratios := [], final_activation := some "Tanh" } =
      .ok (SeaNetDecoder.make { defaultConfig with ratios := [], final_activation := some "Tanh" }) ∧
    (SeaNetEncoder.make { defaultConfig with ratios := [], final_activation := some "Tanh" }).hop_length = 1 ∧
    (SeaNetEncoder.make { defaultConfig with ratios := [], final_activation := some "Tanh" }).n_blocks = 2 ∧
    (SeaNetDecoder.make { defaultConfig with ratios := [], final_activation := some "Tanh" }).hop_length = 1 ∧
    (SeaNetDecoder.make { defaultConfig with ratios := [], final_activation := some "Tanh" }).n_blocks = 2 ∧
    (SeaNetEncoder.make { defaultConfig with ratios := [], final_activation := some "Tanh" }).model.map Layer.kind =
      [.conv, .activation, .conv] ∧
    (SeaNetDecoder.make { defaultConfig with ratios := [], final_activation := some "Tanh" }).model.map Layer.kind =
      [.conv, .activation, .conv] ++
        (match ({ defaultConfig with ratios := [], final_activation := some "Tanh" } : SeaNetConfig).final_activation with
         | some _ => [LayerKind.activation]
         | none => []) :=
  empty_ratios_construction
    { defaultConfig with ratios := [], final_activation := some "Tanh" }
    rfl rfl (by decide) (by decide)

/-! ## Value semantics of the residual block -/

/-- A feature sequence: one row of integer samples per channel. -/
abbrev Seq := List (List Int)

/-- Modelled from the spec: the forward operation of `StreamingAdd`
(declared at seanet.py lines 35-38; its callable behaviour lives in the
external module machinery) is the elementwise addition of the two paths'
outputs (§4.1 "Combination"). -/
def streamingAdd (u v : Seq) : Seq :=
  List.zipWith (fun a b => List.zipWith (fun x y => x + y) a b) u v

/-- The all-zero sequence with the shape of `x`. -/
def zeroLike (x : Seq) : Seq := x.map fun row => row.map fun _ => (0 : Int)

/-- `SeaNetResnetBlock.__call__` (seanet.py lines 94-97):
`u, v = self.shortcut(x), self.block(x); return self.add(u, v)`.
The shortcut is the exact passthrough when it is `nn.Identity` (true skip;
modelled from the spec: a parameterless identity), and an external
convolution denotation `convF` otherwise; the branch — a composition of
external activation/convolution primitives with unknown weights — is
abstracted as `branchF`. -/
def ResnetBlock.forward (b : ResnetBlock) (convF : ConvSpec → Seq → Seq)
    (branchF : Seq → Seq) (x : Seq) : Seq :=
  let u := match b.shortcut with
    | none => x
    | some c => convF c x
  let v := branchF x
  streamingAdd u v

/-- Adding the all-zero sequence of matching shape is the identity. -/
theorem streamingAdd_zeroLike (x : Seq) : streamingAdd x (zeroLike x) = x := by
  induction x with
  | nil => rfl
  | cons row rest ih =>
    simp only [streamingAdd, zeroLike, List.map_cons, List.zipWith_cons_cons]
    simp only [streamingAdd, zeroLike] at ih
    rw [ih]
    congr 1
    induction row with
    | nil => rfl
    | cons a t ih2 =>
      simp only [List.map_cons, List.zipWith_cons_cons, add_zero]
      rw [ih2]

/-- C3: a residual block's forward pass returns `shortcut(x) + branch(x)`
(elementwise addition of the two paths); in particular, a block built with
`true_skip = true` has the identity shortcut, and whenever the branch
produces the all-zero sequence of the input's shape, the output equals the
input exactly. -/
theorem resnet_forward_identity (b : ResnetBlock) (convF : ConvSpec → Seq → Seq)
    (branchF : Seq → Seq) (x : Seq)
    (hskip : b.shortcut = none) (hzero : branchF x = zeroLike x) :
    (∀ dim ks ds act norm causal pad compress,
      (SeaNetResnetBlock.body dim ks ds act norm causal pad compress
        true).shortcut = none) ∧
    (∀ (b' : ResnetBlock) (cF : ConvSpec → Seq → Seq) (bF : Seq → Seq) (y : Seq),
      ResnetBlock.forward b' cF bF y =
        streamingAdd
          (match b'.shortcut with | none => y | some c => cF c y) (bF y)) ∧
    ResnetBlock.forward b convF branchF x = x := by
  refine ⟨fun _ _ _ _ _ _ _ _ => rfl, fun _ _ _ _ => rfl, ?_⟩
  rw [ResnetBlock.forward, hskip, hzero]
  exact streamingAdd_zeroLike x

/-- Witness for C3: a concrete `dim = 2` true-skip block, an arbitrary
convolution denotation, the all-zero branch, and the input
`[[1, -2], [3, 4]]`. -/
theorem resnet_forward_identity_witness :
    (∀ dim ks ds act norm causal pad compress,
      (SeaNetResnetBlock.body dim ks ds act norm causal pad compress
        true).shortcut = none) ∧
    (∀ (b' : ResnetBlock) (cF : ConvSpec → Seq → Seq) (bF : Seq → Seq) (y : Seq),
      ResnetBlock.forward b' cF bF y =
        streamingAdd
          (match b'.shortcut with | none => y | some c => cF c y) (bF y)) ∧
    ResnetBlock.forward
      (SeaNetResnetBlock.body 2 [3, 1] [1, 1] "ELU" "none" false "reflect" 2 true)
      (fun _ s => s) zeroLike [[1, -2], [3, 4]] = [[1, -2], [3, 4]] :=
  resnet_forward_identity
    (SeaNetResnetBlock.body 2 [3, 1] [1, 1] "ELU" "none" false "reflect" 2 true)
    (fun _ s => s) zeroLike [[1, -2], [3, 4]] rfl rfl

/-! ## Shape semantics of the pipelines -/

/-- A `(channels, length)` shape. -/
abbrev Shape := Nat × Nat

/-- Modelled from the spec: the shape behaviour of the external
`StreamableConv1d` primitive (§6, §8): the input channel count must match
`in_channels`; the streaming/"same"-style padding preserves length at
stride 1 and downsamples length exactly by the stride on stride-divisible
lengths (the round-trip property of §8 is stated for lengths that are
multiples of the hop length). -/
def ConvSpec.outShape (c : ConvSpec) (s : Shape) : Option Shape :=
  if s.1 = c.inChannels ∧ c.stride ∣ s.2 then some (c.outChannels, s.2 / c.stride)
  else none

/-- Modelled from the spec: the shape behaviour of the external
`StreamableConvTranspose1d` primitive (§6): upsamples length by its
stride. -/
def ConvTrSpec.outShape (c : ConvTrSpec) (s : Shape) : Option Shape :=
  if s.1 = c.inChannels then some (c.outChannels, s.2 * c.stride) else none

/-- Shape of a residual-block branch: its (activation, convolution) pairs
composed in order; activations are elementwise (shape preserving). -/
def branchShape : List (String × ConvSpec) → Shape → Option Shape
  | [], s => some s
  | p :: rest, s =>
    match p.2.outShape s with
    | some s1 => branchShape rest s1
    | none => none

/-- Shape of a residual block's output: shortcut and branch shapes must
agree (modelled from the spec §4.1: the two paths must produce sequences of
identical length and channel count to be added elementwise). -/
def ResnetBlock.outShape (b : ResnetBlock) (s : Shape) : Option Shape :=
  let u := match b.shortcut with
    | none => some s
    | some c => c.outShape s
  match u, branchShape b.branch s with
  | some su, some sv => if su = sv then some su else none
  | _, _ => none

/-- Shape of a layer's output. -/
def Layer.outShape : Layer → Shape → Option Shape
  | .conv c, s => c.outShape s
  | .convTranspose c, s => c.outShape s
  | .resnet b, s => b.outShape s
  | .activation _, s => some s

/-- The shape after applying a pipeline of layers in order. -/
def forwardShape : List Layer → Shape → Option Shape
  | [], s => some s
  | l :: rest, s =>
    match l.outShape s with
    | some s1 => forwardShape rest s1
    | none => none

theorem forwardShape_append (xs ys : List Layer) (s : Shape) :
    forwardShape (xs ++ ys) s =
      (forwardShape xs s).bind fun s1 => forwardShape ys s1 := by
  induction xs generalizing s with
  | nil => rfl
  | cons l rest ih =>
    simp only [List.cons_append, forwardShape]
    cases l.outShape s with
    | none => rfl
    | some s1 => simpa using ih s1

theorem forwardShape_of_preserve (ls : List Layer) (s : Shape)
    (h : ∀ l ∈ ls, l.outShape s = some s) : forwardShape ls s = some s := by
  induction ls with
  | nil => rfl
  | cons l rest ih =>
    rw [forwardShape, h l (List.mem_cons_self l rest)]
    exact ih fun l' hl' => h l' (List.mem_cons_of_mem l hl')

/-- The residual blocks the towers build (two branch convolutions, kernel
sizes `[k, 1]`, stride 1) preserve the shape of a `dim`-channel input. -/
theorem body_outShape (dim k1 d1 : Nat) (act norm : String) (causal : Bool)
    (pad : String) (compress : Nat) (tskip : Bool) (l : Nat) :
    (SeaNetResnetBlock.body dim [k1, 1] [d1, 1] act norm causal pad compress
      tskip).outShape (dim, l) = some (dim, l) := by
  cases tskip <;>
    simp [SeaNetResnetBlock.body, ResnetBlock.outShape, branchShape,
      ConvSpec.outShape]

/-- Peeling one layer whose output shape is known. -/
theorem forwardShape_cons_some (l : Layer) (ls : List Layer) (s s1 : Shape)
    (h : l.outShape s = some s1) : forwardShape (l :: ls) s = forwardShape ls s1 := by
  rw [forwardShape, h]

/-- Activations are shape preserving. -/
theorem forwardShape_cons_activation (k : String) (ls : List Layer) (s : Shape) :
    forwardShape (Layer.activation k :: ls) s = forwardShape ls s := rfl

/-- Shape evolution through the encoder's downsampling loop: a
`mult·n_filters`-channel input of stride-divisible length `l` comes out with
`finalMult·n_filters` channels and length `l / prod(rs)`. -/
theorem encoder_loop_shape (cfg : SeaNetConfig) (rs : List Nat) :
    ∀ (i mult l : Nat), (∀ r ∈ rs, 0 < r) → rs.prod ∣ l →
    forwardShape (SeaNetEncoder.loop cfg rs i mult).1 (mult * cfg.n_filters, l) =
      some ((SeaNetEncoder.loop cfg rs i mult).2 * cfg.n_filters, l / rs.prod) := by
  induction rs with
  | nil =>
    intro i mult l _ _
    simp [SeaNetEncoder.loop, forwardShape]
  | cons r rest ih =>
    intro i mult l hr hdvd
    have hrl : r ∣ l := dvd_trans (dvd_mul_right r rest.prod) (by simpa using hdvd)
    have hrest : rest.prod ∣ l / r := by
      rw [Nat.dvd_div_iff_mul_dvd hrl]
      simpa using hdvd
    simp only [SeaNetEncoder.loop]
    rw [forwardShape_append, forwardShape_append]
    rw [forwardShape_of_preserve _ _ ?hres]
    case hres =>
      intro l' hl'
      obtain ⟨j, _, rfl⟩ := List.mem_map.mp hl'
      exact body_outShape _ _ _ _ _ _ _ _ _ _
    simp only [Option.some_bind]
    rw [show forwardShape
        [Layer.activation cfg.activation,
         Layer.conv
           { inChannels := mult * cfg.n_filters,
             outChannels := mult * cfg.n_filters * 2, kernelSize := r * 2,
             stride := r, dilation := 1,
             norm := if cfg.disable_norm_outer_blocks ≥ (i : Int) + 2 then "none"
               else cfg.norm,
             causal := cfg.causal, padMode := cfg.pad_mode }]
        (mult * cfg.n_filters, l) =
        some (mult * cfg.n_filters * 2, l / r) from by
      simp [forwardShape, Layer.outShape, ConvSpec.outShape, hrl]]
    simp only [Option.some_bind]
    rw [show mult * cfg.n_filters * 2 = (mult * 2) * cfg.n_filters from by ring]
    rw [ih (i + 1) (mult * 2) (l / r)
      (fun x hx => hr x (List.mem_cons_of_mem r hx)) hrest]
    rw [Nat.div_div_eq_div_mul, List.prod_cons]

/-- Shape evolution through the decoder's upsampling loop, starting at
channel multiplier `2^K` with at least `rs.length` halvings available: a
`2^K·n_filters`-channel input of length `l` comes out with
`2^(K - rs.length)·n_filters` channels and length `l · prod(rs)`. -/
theorem decoder_loop_shape (cfg : SeaNetConfig) (nB : Nat) (rs : List Nat) :
    ∀ (i K l : Nat), rs.length ≤ K →
    forwardShape (SeaNetDecoder.loop cfg nB rs i (2 ^ K)).1
      (2 ^ K * cfg.n_filters, l) =
      some (2 ^ (K - rs.length) * cfg.n_filters, l * rs.prod) := by
  induction rs with
  | nil =>
    intro i K l _
    simp [SeaNetDecoder.loop, forwardShape]
  | cons r rest ih =>
    intro i K l hK
    have hK1 : 1 ≤ K := le_trans (Nat.succ_le_succ (Nat.zero_le _)) hK
    have hdiv : (2 : Nat) ^ K / 2 = 2 ^ (K - 1) := by
      conv_lhs => rw [show K = (K - 1) + 1 by omega]
      rw [pow_succ, Nat.mul_div_cancel _ (by norm_num)]
    have hhalf : 2 ^ K * cfg.n_filters / 2 = 2 ^ (K - 1) * cfg.n_filters := by
      conv_lhs => rw [show K = (K - 1) + 1 by omega]
      rw [pow_succ,
        show 2 ^ (K - 1) * 2 * cfg.n_filters =
          2 ^ (K - 1) * cfg.n_filters * 2 from by ring,
        Nat.mul_div_cancel _ (by norm_num)]
    simp only [SeaNetDecoder.loop]
    rw [forwardShape_append, forwardShape_append]
    rw [show forwardShape
        [Layer.activation cfg.activation,
         Layer.convTranspose
           { inChannels := 2 ^ K * cfg.n_filters,
             outChannels := 2 ^ K * cfg.n_filters / 2, kernelSize := r * 2,
             stride := r,
             norm := if cfg.disable_norm_outer_blocks ≥
                 (nB : Int) - ((i : Int) + 1) then "none"
               else cfg.norm,
             causal := cfg.causal }]
        (2 ^ K * cfg.n_filters, l) =
        some (2 ^ K * cfg.n_filters / 2, l * r) from by
      simp [forwardShape, Layer.outShape, ConvTrSpec.outShape]]
    simp only [Option.some_bind]
    rw [forwardShape_of_preserve _ _ ?hres]
    case hres =>
      intro l' hl'
      obtain ⟨j, _, rfl⟩ := List.mem_map.mp hl'
      exact body_outShape _ _ _ _ _ _ _ _ _ _
    simp only [Option.some_bind]
    rw [hhalf, hdiv, ih (i + 1) (K - 1) (l * r) (by simp at hK ⊢; omega)]
    rw [show K - 1 - rest.length = K - (rest.length + 1) from by omega]
    simp [List.prod_cons, mul_assoc]

/-- C6 (shape semantics of the primitives modelled from the spec): for any
configuration with positive ratios and any input length `L` divisible by the
hop length, the encoder pipeline maps a `(channels, L)` input to a
`(dimension, L / hop_length)` output, and the decoder pipeline maps that
back to `(channels, L)`. -/
theorem round_trip_shape (cfg : SeaNetConfig) (L : Nat)
    (hr : ∀ r ∈ cfg.ratios, 0 < r) (hdvd : cfg.ratios.prod ∣ L) :
    forwardShape (SeaNetEncoder.make cfg).model (cfg.channels, L) =
      some (cfg.dimension, L / cfg.ratios.prod) ∧
    forwardShape (SeaNetDecoder.make cfg).model
      (cfg.dimension, L / cfg.ratios.prod) = some (cfg.channels, L) := by
  constructor
  · simp only [SeaNetEncoder.make]
    rw [forwardShape_cons_some _ _ _ (1 * cfg.n_filters, L)
      (by simp [Layer.outShape, ConvSpec.outShape])]
    rw [forwardShape_append]
    rw [encoder_loop_shape cfg _ 0 1 L
      (by intro x hx; exact hr x (List.mem_reverse.mp hx))
      (by rw [List.prod_reverse]; exact hdvd)]
    simp only [Option.some_bind]
    rw [forwardShape_cons_activation]
    rw [forwardShape_cons_some _ _ _
      (cfg.dimension, L / cfg.ratios.reverse.prod / 1)
      (by simp [Layer.outShape, ConvSpec.outShape])]
    rw [forwardShape]
    rw [List.prod_reverse, Nat.div_one]
  · simp only [SeaNetDecoder.make]
    rw [forwardShape_cons_some _ _ _
      (2 ^ cfg.ratios.length * cfg.n_filters, L / cfg.ratios.prod)
      (by simp [Layer.outShape, ConvSpec.outShape])]
    rw [forwardShape_append, forwardShape_append]
    rw [decoder_loop_shape cfg _ _ 0 cfg.ratios.length (L / cfg.ratios.prod)
      le_rfl]
    simp only [Option.some_bind, Nat.sub_self, pow_zero, one_mul]
    rw [Nat.div_mul_cancel hdvd]
    rw [forwardShape_cons_activation]
    rw [forwardShape_cons_some _ _ _ (cfg.channels, L / 1)
      (by simp [Layer.outShape, ConvSpec.outShape])]
    rw [Nat.div_one]
    cases hf : cfg.final_activation <;> simp [forwardShape, Layer.outShape]

/-- Witness for C6 at the default configuration (`ratios = [8, 5, 4, 2]`,
`hop_length = 320`, `n_filters = 32`, `dimension = 128`, `channels = 1`) and
`L = 320`: the encoder maps `(1, 320)` to one latent frame `(128, 1)` and
the decoder maps `(128, 1)` back to `(1, 320)`. -/
theorem round_trip_shape_witness :
    forwardShape (SeaNetEncoder.make defaultConfig).model (1, 320) =
      some (128, 1) ∧
    forwardShape (SeaNetDecoder.make defaultConfig).model (128, 1) =
      some (1, 320) :=
  round_trip_shape defaultConfig 320 (by decide) (by decide)

end SeaNetSpec
